import Mathlib

/-!
Verification of the schema-validation behavior demonstrated by the
pydantic-tutorials repository.  The repository's five scripts declare
record shapes (`MyFirstModel`, `MySecondModel`, `NameModel`,
`MyThirdModel`, `DefaultsModel`, `DefaultsModel_Field`) and construct
instances from literal input, printing the resulting instance or the
validation failure.  The validation engine itself is the external
pydantic library, which is not part of the repository sources, so the
engine is modelled here from the specification's §4.1 contract
(fail-fast, declaration-order field processing, element-wise collection
checking, left-to-right union resolution, fixed-default versus
default-factory semantics) and the behavior demonstrated by the scripts.
-/

namespace PydanticModel

/-- A calendar timestamp, the model of Python's `datetime.datetime`
values used by `MyThirdModel.holidays`. -/
structure DateTime where
  year : Nat
  month : Nat
  day : Nat
  hour : Nat
  minute : Nat
  second : Nat
deriving DecidableEq, Repr

/-- Runtime values: the raw inputs supplied at construction time and the
validated values bound into record instances.  Mappings are association
lists whose keys are themselves values (the scripts supply an `int` key
to show key validation). -/
inductive Val where
  | vstr (s : String)
  | vint (n : Int)
  | vnone
  | vdatetime (d : DateTime)
  | vlist (xs : List Val)
  | vdict (entries : List (Val × Val))

/-- Semantic types of field declarations: scalars, sequences, mappings
and tagged unions (alternatives tried in declared order). -/
inductive Ty where
  | any
  | str
  | int
  | noneTy
  | datetime
  | list (elem : Ty)
  | dict (key : Ty) (value : Ty)
  | union (alts : List Ty)

/-- One step of a dotted/indexed error path: a field name, a sequence
index, or a mapping key. -/
inductive PathElem where
  | field (name : String)
  | index (i : Nat)
  | key (k : Val)

/-- The error taxonomy of the specification's §7: `MissingField`,
`TypeMismatch`, `KeyTypeMismatch` and `UnionMismatch`, each carrying the
field path, the expected type description and the received value. -/
inductive VError where
  | missingField (name : String)
  | typeMismatch (path : List PathElem) (expected : Ty) (received : Val)
  | keyTypeMismatch (path : List PathElem) (expected : Ty) (received : Val)
  | unionMismatch (path : List PathElem) (alts : List Ty) (received : Val)

/-- Left-pad a numeral to two digits, for the canonical timestamp text. -/
def pad2 (n : Nat) : String :=
  if n < 10 then "0" ++ toString n else toString n

/-- Left-pad a numeral to four digits, for the canonical timestamp text. -/
def pad4 (n : Nat) : String :=
  if n < 10 then "000" ++ toString n
  else if n < 100 then "00" ++ toString n
  else if n < 1000 then "0" ++ toString n
  else toString n

/-- The single canonical textual representation of a timestamp
(ISO-8601, as produced by the dump operation in Test 10). -/
def dtRender (d : DateTime) : String :=
  pad4 d.year ++ "-" ++ pad2 d.month ++ "-" ++ pad2 d.day ++ "T" ++
    pad2 d.hour ++ ":" ++ pad2 d.minute ++ ":" ++ pad2 d.second

/-- Split a character list on a separator character; the groups between
separators are returned in order (an empty input gives one empty group). -/
def splitOnChar (c : Char) (cs : List Char) : List (List Char) :=
  match cs with
  | [] => [[]]
  | x :: rest =>
    match splitOnChar c rest with
    | [] => if x = c then [[], []] else [[x]]
    | g :: gs => if x = c then [] :: g :: gs else (x :: g) :: gs

/-- Read a decimal digit. -/
def charDigit (c : Char) : Option Nat :=
  if c.isDigit then some (c.toNat - 48) else none

/-- Accumulate decimal digits into a numeral, failing on a non-digit. -/
def digitsToNatAux (acc : Nat) (cs : List Char) : Option Nat :=
  match cs with
  | [] => some acc
  | c :: rest =>
    match charDigit c with
    | some d => digitsToNatAux (acc * 10 + d) rest
    | none => none

/-- Parse a non-empty all-digit character list as a numeral. -/
def digitsToNat (cs : List Char) : Option Nat :=
  match cs with
  | [] => none
  | _ => digitsToNatAux 0 cs

/-- Parse three numerals out of separator-split groups. -/
def threeNats (groups : List (List Char)) : Option (Nat × Nat × Nat) :=
  match groups with
  | [a, b, c] =>
    match digitsToNat a, digitsToNat b, digitsToNat c with
    | some x, some y, some z => some (x, y, z)
    | _, _, _ => none
  | _ => none

/-- Modelled from the spec: the lossless string-to-timestamp conversion
attempted by the external engine (scalar coercion, §4.1); accepts a
date `YYYY-MM-DD` or a full canonical timestamp `YYYY-MM-DDTHH:MM:SS`. -/
def dtParse (s : String) : Option DateTime :=
  match splitOnChar 'T' s.data with
  | [date] =>
    match threeNats (splitOnChar '-' date) with
    | some (y, mo, dy) => some ⟨y, mo, dy, 0, 0, 0⟩
    | none => none
  | [date, time] =>
    match threeNats (splitOnChar '-' date), threeNats (splitOnChar ':' time) with
    | some (y, mo, dy), some (h, mi, sec) => some ⟨y, mo, dy, h, mi, sec⟩
    | _, _ => none
  | _ => none

/-- The type of a compiled checker for a single declared type: raw value
and path in, validated value or failure out. -/
def Checker : Type :=
  Val → List PathElem → Except VError Val

/-- Modelled from the spec: element-wise check of a sequence by the
element-type checker `f`, failing at the first offending element, whose
index is recorded in the path. -/
def checkSeq (f : Checker) (xs : List Val) (p : List PathElem) (i : Nat) :
    Except VError (List Val) :=
  match xs with
  | [] => .ok []
  | x :: rest =>
    match f x (p ++ [.index i]) with
    | .error e => .error e
    | .ok y =>
      match checkSeq f rest p (i + 1) with
      | .error e => .error e
      | .ok ys => .ok (y :: ys)

/-- Modelled from the spec: entry-wise check of a mapping by the key-type
checker `fk` and the value-type checker `fv`; each key is checked first
(an offending key yields `KeyTypeMismatch` naming it, with the declared
key type `kt`), then the entry's value (an offending value yields the
inner error, a `TypeMismatch` naming it for scalar value types). -/
def checkMap (kt : Ty) (fk : Checker) (fv : Checker)
    (es : List (Val × Val)) (p : List PathElem) :
    Except VError (List (Val × Val)) :=
  match es with
  | [] => .ok []
  | (k, v) :: rest =>
    match fk k (p ++ [.key k]) with
    | .error _ => .error (.keyTypeMismatch (p ++ [.key k]) kt k)
    | .ok k2 =>
      match fv v (p ++ [.key k]) with
      | .error e => .error e
      | .ok v2 =>
        match checkMap kt fk fv rest p with
        | .error e => .error e
        | .ok rest2 => .ok ((k2, v2) :: rest2)

/-- Modelled from the spec: union resolution — try the alternatives'
checkers in declared order; the first alternative that accepts the value
wins, and exhaustion yields `UnionMismatch` carrying all the declared
(attempted) alternatives `orig`. -/
def resolveUnion (orig : List Ty) (fs : List Checker) (v : Val)
    (p : List PathElem) : Except VError Val :=
  match fs with
  | [] => .error (.unionMismatch p orig v)
  | f :: rest =>
    match f v p with
    | .ok w => .ok w
    | .error _ => resolveUnion orig rest v p

mutual

/-- Modelled from the spec: the external engine's check/coercion of one
raw value against one declared semantic type (§4.1).  Scalars must
already have, or losslessly convert to, the declared type; sequences and
mappings are checked element-wise; a union tries its alternatives in
declared order. -/
def checkVal : Ty → Val → List PathElem → Except VError Val
  | .any => fun v _ => .ok v
  | .str => fun v p =>
    match v with
    | .vstr s => .ok (.vstr s)
    | w => .error (.typeMismatch p .str w)
  | .int => fun v p =>
    match v with
    | .vint n => .ok (.vint n)
    | w => .error (.typeMismatch p .int w)
  | .noneTy => fun v p =>
    match v with
    | .vnone => .ok .vnone
    | w => .error (.typeMismatch p .noneTy w)
  | .datetime => fun v p =>
    match v with
    | .vdatetime d => .ok (.vdatetime d)
    | .vstr s =>
      match dtParse s with
      | some d => .ok (.vdatetime d)
      | none => .error (.typeMismatch p .datetime (.vstr s))
    | w => .error (.typeMismatch p .datetime w)
  | .list et => fun v p =>
    match v with
    | .vlist xs =>
      match checkSeq (checkVal et) xs p 0 with
      | .ok ys => .ok (.vlist ys)
      | .error e => .error e
    | w => .error (.typeMismatch p (.list et) w)
  | .dict kt vt => fun v p =>
    match v with
    | .vdict es =>
      match checkMap kt (checkVal kt) (checkVal vt) es p with
      | .ok es2 => .ok (.vdict es2)
      | .error e => .error e
    | w => .error (.typeMismatch p (.dict kt vt) w)
  | .union alts => fun v p =>
    resolveUnion alts (checkersOf alts) v p

/-- The checkers of a list of union alternatives, in declared order. -/
def checkersOf : List Ty → List Checker
  | [] => []
  | t :: ts => checkVal t :: checkersOf ts

end

/-- Find the value supplied for a field name in the construction input
mapping (first binding wins). -/
def lookupInput (input : List (String × Val)) (n : String) : Option Val :=
  match input with
  | [] => none
  | (k, v) :: rest => if k = n then some v else lookupInput rest n

/-- A field's default: absent (the field is required), a single fixed
value evaluated once per shape, or a factory producing a value per
construction. -/
inductive FieldDefault where
  | required
  | fixed (v : Val)
  | factory (v : Val)

/-- One field declaration of a record shape: name, semantic type and
default kind. -/
structure FieldDecl where
  name : String
  ty : Ty
  dflt : FieldDefault

/-- Modelled from the spec: the external engine's handling of one
declared field (§4.1) — a supplied value is checked/coerced against the
declared type; a missing field falls back to the fixed default, then to
the factory, and otherwise fails with `MissingField`. -/
def validateField (f : FieldDecl) (input : List (String × Val)) :
    Except VError Val :=
  match lookupInput input f.name with
  | some v => checkVal f.ty v [.field f.name]
  | none =>
    match f.dflt with
    | .fixed d => .ok d
    | .factory d => .ok d
    | .required => .error (.missingField f.name)

/-- Modelled from the spec: fail-fast construction — the declared fields
are processed in declaration order and the first error aborts the whole
construction; on success every field is bound. -/
def validateFields (fs : List FieldDecl) (input : List (String × Val)) :
    Except VError (List (String × Val)) :=
  match fs with
  | [] => .ok []
  | f :: rest =>
    match validateField f input with
    | .error e => .error e
    | .ok v =>
      match validateFields rest input with
      | .error e => .error e
      | .ok bs => .ok ((f.name, v) :: bs)

/-- A record shape: a named, ordered set of field declarations. -/
structure Shape where
  fields : List FieldDecl

/-- Modelled from the spec: the validator's contract — given a shape and
an input mapping, produce either a fully bound record instance or a
structured validation failure. -/
def validate (s : Shape) (input : List (String × Val)) :
    Except VError (List (String × Val)) :=
  validateFields s.fields input

/-- The shape of `MyFirstModel` (example1): two required strings. -/
def myFirstModel : Shape :=
  ⟨[⟨"first_name", .str, .required⟩, ⟨"last_name", .str, .required⟩]⟩

/-- The shape of `MySecondModel` (example2_optional_parameters): the
`middle_name` field is union-typed `str`-or-`None` but carries no
default. -/
def mySecondModel : Shape :=
  ⟨[⟨"first_name", .str, .required⟩,
    ⟨"middle_name", .union [.str, .noneTy], .required⟩]⟩

/-- The shape of `NameModel` (example2_union_explanation): `middle_name`
is union-typed `str`-or-`None` and defaults to `None`. -/
def nameModel : Shape :=
  ⟨[⟨"first_name", .str, .required⟩,
    ⟨"middle_name", .union [.str, .noneTy], .fixed .vnone⟩,
    ⟨"last_name", .str, .required⟩]⟩

/-- The shape of `MyThirdModel` (example3): a string-to-string mapping,
a string sequence and a sequence of string-or-timestamp union items. -/
def myThirdModel : Shape :=
  ⟨[⟨"name", .dict .str .str, .required⟩,
    ⟨"skills", .list .str, .required⟩,
    ⟨"holidays", .list (.union [.str, .datetime]), .required⟩]⟩

mutual

/-- Modelled from the spec: the dump operation's conversion of one bound
value to its structured-textual form (Test 10's `model_dump_json`
followed by `json.loads`): timestamps become their single canonical
textual representation, collections are converted element-wise, and
scalars are unchanged. -/
def dumpVal : Val → Val
  | .vstr s => .vstr s
  | .vint n => .vint n
  | .vnone => .vnone
  | .vdatetime d => .vstr (dtRender d)
  | .vlist xs => .vlist (dumpValList xs)
  | .vdict es => .vdict (dumpValEntries es)

/-- Element-wise dump of a sequence value. -/
def dumpValList : List Val → List Val
  | [] => []
  | x :: rest => dumpVal x :: dumpValList rest

/-- Entry-wise dump of a mapping value. -/
def dumpValEntries : List (Val × Val) → List (Val × Val)
  | [] => []
  | (k, v) :: rest => (dumpVal k, dumpVal v) :: dumpValEntries rest

end

/-- Modelled from the spec: the dump operation on a whole record
instance — every bound field is converted to its structured-textual
form, and the result is the string-keyed mapping handed back to the
validator by Test 10's reconstruction. -/
def dumpInst : List (String × Val) → List (String × Val)
  | [] => []
  | (n, v) :: rest => (n, dumpVal v) :: dumpInst rest

/-! ### A store model for the mutable-default demonstrations

example4_default mutates Python lists in place after construction, so
the list values bound by `DefaultsModel` and `DefaultsModel_Field` are
modelled as references into an explicit store of list cells: a cell
identifier is an index into the store, defining a class with a fixed
mutable default allocates its one shared cell, and a default factory
allocates a fresh cell at each construction. -/

/-- The store of mutable list cells (the middle-name lists). -/
structure Heap where
  cells : List (List String)

/-- Allocate a fresh cell holding `xs`; the new cell's identifier is the
store's current size, so it is distinct from every live cell. -/
def allocCell (h : Heap) (xs : List String) : Nat × Heap :=
  (h.cells.length, ⟨h.cells ++ [xs]⟩)

/-- Read a cell's current list contents. -/
def readCell (h : Heap) (c : Nat) : List String :=
  h.cells.getD c []

/-- The in-place `append` performed by the scripts on a middle-name
list: mutate cell `c`, leaving every other cell untouched. -/
def appendCell (h : Heap) (c : Nat) (s : String) : Heap :=
  ⟨h.cells.set c (h.cells.getD c [] ++ [s])⟩

/-- A constructed instance of `DefaultsModel` or `DefaultsModel_Field`:
two immutable string fields and a reference to a list cell. -/
structure DefaultsInstance where
  first_name : String
  middle_name : Nat
  last_name : String
deriving DecidableEq, Repr

/-- Modelled from the spec: defining `DefaultsModel` evaluates its
mutable default `[]` once, allocating the single list cell shared by
every subsequent construction (the documented pitfall). -/
def defineDefaultsModel (h : Heap) : Nat × Heap :=
  allocCell h []

/-- Modelled from the spec: constructing a `DefaultsModel` with no input
binds the fixed string defaults and the class's one shared list cell;
no fresh cell is produced. -/
def mkDefaultsModel (shared : Nat) (h : Heap) : DefaultsInstance × Heap :=
  (⟨"Cynthia", shared, "Frong"⟩, h)

/-- Modelled from the spec: constructing a `DefaultsModel_Field` with no
input invokes the default factory `list`, allocating a fresh empty list
cell independent of every other instance's cell. -/
def mkDefaultsModelField (h : Heap) : DefaultsInstance × Heap :=
  let fresh := allocCell h []
  (⟨"Cynthia", fresh.1, "Frong"⟩, fresh.2)

/-- The pure-validator view of `DefaultsModel` (example4): every field
has a fixed default, the middle-name default being the one mutable
list. -/
def defaultsModel : Shape :=
  ⟨[⟨"first_name", .str, .fixed (.vstr "Cynthia")⟩,
    ⟨"middle_name", .list .any, .fixed (.vlist [])⟩,
    ⟨"last_name", .str, .fixed (.vstr "Frong")⟩]⟩

/-- The pure-validator view of `DefaultsModel_Field` (example4): the
middle-name default is produced by the `list` default factory. -/
def defaultsModelField : Shape :=
  ⟨[⟨"first_name", .str, .fixed (.vstr "Cynthia")⟩,
    ⟨"middle_name", .list .any, .factory (.vlist [])⟩,
    ⟨"last_name", .str, .fixed (.vstr "Frong")⟩]⟩

/-! ### General lemmas about the validator -/

/-- The value carried by a successful check (a placeholder otherwise). -/
def okValD : Except VError Val → Val
  | .ok v => v
  | .error _ => .vnone

/-- Stated from the spec's words on union resolution: the result of the
first alternative, in declared order, that accepts the value. -/
def firstAccept (alts : List Ty) (v : Val) (p : List PathElem) : Option Val :=
  alts.findSome? fun a => (checkVal a v p).toOption

theorem resolveUnion_checkersOf (orig alts : List Ty) (v : Val)
    (p : List PathElem) :
    resolveUnion orig (checkersOf alts) v p =
      match firstAccept alts v p with
      | some w => .ok w
      | none => .error (.unionMismatch p orig v) := by
  induction alts with
  | nil => rfl
  | cons a rest ih =>
    rw [checkersOf]
    cases h : checkVal a v p with
    | ok w =>
      simp [resolveUnion, firstAccept, List.findSome?_cons, h, Except.toOption]
    | error e =>
      simp only [resolveUnion, firstAccept, List.findSome?_cons, h,
        Except.toOption]
      exact ih

theorem validateFields_ok_of_all (fs : List FieldDecl)
    (input : List (String × Val))
    (h : ∀ f ∈ fs, (validateField f input).isOk = true) :
    validateFields fs input =
      .ok (fs.map fun f => (f.name, okValD (validateField f input))) := by
  induction fs with
  | nil => rfl
  | cons f rest ih =>
    have hf := h f (List.mem_cons_self f rest)
    cases hv : validateField f input with
    | error e => rw [hv] at hf; exact absurd hf (by simp [Except.isOk, Except.toBool])
    | ok v =>
      rw [validateFields, hv, ih fun g hg => h g (List.mem_cons_of_mem f hg)]
      simp [hv, okValD]

theorem validateFields_ok_inv (fs : List FieldDecl)
    (input : List (String × Val)) (bs : List (String × Val))
    (h : validateFields fs input = .ok bs) :
    bs = (fs.map fun f => (f.name, okValD (validateField f input))) ∧
      ∀ f ∈ fs, (validateField f input).isOk = true := by
  induction fs generalizing bs with
  | nil =>
    rw [validateFields] at h
    cases h
    exact ⟨rfl, by simp⟩
  | cons f rest ih =>
    rw [validateFields] at h
    cases hv : validateField f input with
    | error e => rw [hv] at h; cases h
    | ok v =>
      rw [hv] at h
      cases hr : validateFields rest input with
      | error e => rw [hr] at h; cases h
      | ok bs2 =>
        rw [hr] at h
        cases h
        obtain ⟨h1, h2⟩ := ih bs2 hr
        constructor
        · simp [h1, hv, okValD]
        · intro g hg
          rcases List.mem_cons.mp hg with hg | hg
          · subst hg; simp [hv, Except.isOk, Except.toBool]
          · exact h2 g hg

theorem validateFields_error_iff (fs : List FieldDecl)
    (input : List (String × Val)) (e : VError) :
    validateFields fs input = .error e ↔
      ∃ pre f post, fs = pre ++ f :: post ∧
        (∀ g ∈ pre, (validateField g input).isOk = true) ∧
        validateField f input = .error e := by
  constructor
  · intro h
    induction fs with
    | nil => rw [validateFields] at h; cases h
    | cons f rest ih =>
      rw [validateFields] at h
      cases hv : validateField f input with
      | error e2 =>
        rw [hv] at h
        cases h
        exact ⟨[], f, rest, rfl, by simp, hv⟩
      | ok v =>
        rw [hv] at h
        cases hr : validateFields rest input with
        | error e2 =>
          rw [hr] at h
          cases h
          obtain ⟨pre, g, post, h1, h2, h3⟩ := ih hr
          refine ⟨f :: pre, g, post, by simp [h1], ?_, h3⟩
          intro q hq
          rcases List.mem_cons.mp hq with hq | hq
          · subst hq; simp [hv, Except.isOk, Except.toBool]
          · exact h2 q hq
        | ok bs => rw [hr] at h; cases h
  · rintro ⟨pre, f, post, rfl, h2, h3⟩
    induction pre with
    | nil => rw [List.nil_append, validateFields, h3]
    | cons q pre ih =>
      have hq := h2 q (List.mem_cons_self q pre)
      cases hv : validateField q input with
      | error e2 =>
        rw [hv] at hq
        exact absurd hq (by simp [Except.isOk, Except.toBool])
      | ok v =>
        rw [List.cons_append, validateFields, hv,
          ih fun g hg => h2 g (List.mem_cons_of_mem q hg)]

/-! ### Lemmas for the serialization round trip -/

theorem checkVal_str_ok (v w : Val) (p : List PathElem)
    (h : checkVal .str v p = .ok w) : ∃ s, v = .vstr s ∧ w = .vstr s := by
  cases v <;> simp [checkVal] at h
  case vstr s => exact ⟨s, rfl, h.symm⟩

theorem checkVal_unionSD_ok (v w : Val) (p : List PathElem)
    (h : checkVal (.union [.str, .datetime]) v p = .ok w) :
    (∃ s, w = .vstr s) ∨ (∃ d, w = .vdatetime d) := by
  cases v <;> simp [checkVal, resolveUnion, checkersOf] at h
  case vstr s => exact .inl ⟨s, h.symm⟩
  case vdatetime d => exact .inr ⟨d, h.symm⟩

theorem checkVal_dict_ok (kt vt : Ty) (v w : Val) (p : List PathElem)
    (h : checkVal (.dict kt vt) v p = .ok w) :
    ∃ es es2, v = .vdict es ∧ w = .vdict es2 ∧
      checkMap kt (checkVal kt) (checkVal vt) es p = .ok es2 := by
  cases v <;> simp [checkVal] at h
  case vdict es =>
    cases hm : checkMap kt (checkVal kt) (checkVal vt) es p with
    | error e => rw [hm] at h; cases h
    | ok es2 =>
      rw [hm] at h
      cases h
      exact ⟨es, es2, rfl, rfl, hm⟩

theorem checkVal_list_ok (et : Ty) (v w : Val) (p : List PathElem)
    (h : checkVal (.list et) v p = .ok w) :
    ∃ xs ys, v = .vlist xs ∧ w = .vlist ys ∧
      checkSeq (checkVal et) xs p 0 = .ok ys := by
  cases v <;> simp [checkVal] at h
  case vlist xs =>
    cases hm : checkSeq (checkVal et) xs p 0 with
    | error e => rw [hm] at h; cases h
    | ok ys =>
      rw [hm] at h
      cases h
      exact ⟨xs, ys, rfl, rfl, hm⟩

theorem checkSeq_ok_forall (f : Checker) (P : Val → Prop)
    (hf : ∀ x q w, f x q = .ok w → P w) (xs ys : List Val)
    (p : List PathElem) (i : Nat) (h : checkSeq f xs p i = .ok ys) :
    ∀ y ∈ ys, P y := by
  induction xs generalizing ys i with
  | nil => rw [checkSeq] at h; cases h; simp
  | cons x rest ih =>
    rw [checkSeq] at h
    cases h1 : f x (p ++ [.index i]) with
    | error e => rw [h1] at h; cases h
    | ok y0 =>
      rw [h1] at h
      cases h2 : checkSeq f rest p (i + 1) with
      | error e => rw [h2] at h; cases h
      | ok ys0 =>
        rw [h2] at h
        cases h
        intro y hy
        rcases List.mem_cons.mp hy with rfl | hy
        · exact hf x (p ++ [.index i]) y h1
        · exact ih ys0 (i + 1) h2 y hy

theorem checkMap_ok_forall (kt : Ty) (fk fv : Checker) (P Q : Val → Prop)
    (hfk : ∀ x q w, fk x q = .ok w → P w)
    (hfv : ∀ x q w, fv x q = .ok w → Q w) (es es2 : List (Val × Val))
    (p : List PathElem) (h : checkMap kt fk fv es p = .ok es2) :
    ∀ kv ∈ es2, P kv.1 ∧ Q kv.2 := by
  induction es generalizing es2 with
  | nil => rw [checkMap] at h; cases h; simp
  | cons kv rest ih =>
    obtain ⟨k, v⟩ := kv
    rw [checkMap] at h
    cases h1 : fk k (p ++ [.key k]) with
    | error e => rw [h1] at h; cases h
    | ok k2 =>
      rw [h1] at h
      cases h2 : fv v (p ++ [.key k]) with
      | error e => rw [h2] at h; cases h
      | ok v2 =>
        rw [h2] at h
        cases h3 : checkMap kt fk fv rest p with
        | error e => rw [h3] at h; cases h
        | ok rest2 =>
          rw [h3] at h
          cases h
          intro kv2 hkv2
          rcases List.mem_cons.mp hkv2 with rfl | hkv2
          · exact ⟨hfk k _ k2 h1, hfv v _ v2 h2⟩
          · exact ih rest2 h3 kv2 hkv2

theorem validateField_ok_decomp (f : FieldDecl) (input : List (String × Val))
    (hreq : f.dflt = .required) (h : (validateField f input).isOk = true) :
    ∃ rv w, lookupInput input f.name = some rv ∧
      checkVal f.ty rv [.field f.name] = .ok w ∧
      okValD (validateField f input) = w := by
  cases hl : lookupInput input f.name with
  | none =>
    rw [validateField, hl, hreq] at h
    simp [Except.isOk, Except.toBool] at h
  | some rv =>
    simp only [validateField, hl] at h
    cases hc : checkVal f.ty rv [.field f.name] with
    | error e => rw [hc] at h; simp [Except.isOk, Except.toBool] at h
    | ok w => exact ⟨rv, w, rfl, hc, by simp [validateField, hl, hc, okValD]⟩

theorem dump_revalidate_str_entries (es : List (Val × Val))
    (p : List PathElem)
    (h : ∀ kv ∈ es, (∃ s, kv.1 = Val.vstr s) ∧ (∃ s, kv.2 = Val.vstr s)) :
    dumpValEntries es = es ∧
      checkMap .str (checkVal .str) (checkVal .str) es p = .ok es := by
  induction es with
  | nil => exact ⟨rfl, rfl⟩
  | cons kv rest ih =>
    obtain ⟨k, v⟩ := kv
    obtain ⟨⟨sk, hk⟩, ⟨sv, hv⟩⟩ := h (k, v) (List.mem_cons_self (k, v) rest)
    dsimp only at hk hv
    subst hk hv
    obtain ⟨ih1, ih2⟩ := ih fun kv2 h2 => h kv2 (List.mem_cons_of_mem _ h2)
    constructor
    · simp [dumpValEntries, dumpVal, ih1]
    · rw [checkMap, ih2]
      simp [checkVal]

theorem dump_revalidate_str_list (ys : List Val) (p : List PathElem) (i : Nat)
    (h : ∀ y ∈ ys, ∃ s, y = .vstr s) :
    dumpValList ys = ys ∧ checkSeq (checkVal .str) ys p i = .ok ys := by
  induction ys generalizing i with
  | nil => exact ⟨rfl, rfl⟩
  | cons y rest ih =>
    obtain ⟨s, hy⟩ := h y (List.mem_cons_self y rest)
    subst hy
    obtain ⟨ih1, ih2⟩ := ih (i + 1) fun z hz => h z (List.mem_cons_of_mem _ hz)
    constructor
    · simp [dumpValList, dumpVal, ih1]
    · rw [checkSeq, ih2]
      simp [checkVal]

theorem dump_revalidate_unionSD (ys : List Val) (p : List PathElem) (i : Nat)
    (h : ∀ y ∈ ys, (∃ s, y = .vstr s) ∨ (∃ d, y = .vdatetime d)) :
    checkSeq (checkVal (.union [.str, .datetime])) (dumpValList ys) p i =
      .ok (dumpValList ys) := by
  induction ys generalizing i with
  | nil => rfl
  | cons y rest ih =>
    have hrest := ih (i + 1) fun z hz => h z (List.mem_cons_of_mem _ hz)
    rcases h y (List.mem_cons_self y rest) with ⟨s, hy⟩ | ⟨d, hy⟩ <;> subst hy
    · rw [show dumpValList (Val.vstr s :: rest) =
          Val.vstr s :: dumpValList rest from rfl, checkSeq, hrest]
      simp [checkVal, resolveUnion, checkersOf]
    · rw [show dumpValList (Val.vdatetime d :: rest) =
          Val.vstr (dtRender d) :: dumpValList rest from rfl, checkSeq, hrest]
      simp [checkVal, resolveUnion, checkersOf]

/-! ### Lemmas about the store of mutable list cells -/

theorem readCell_appendCell_self (h : Heap) (c : Nat) (s : String)
    (hc : c < h.cells.length) :
    readCell (appendCell h c s) c = readCell h c ++ [s] := by
  simp [readCell, appendCell, List.getD, List.getElem?_set_self hc]

theorem readCell_appendCell_ne (h : Heap) (c c2 : Nat) (s : String)
    (hne : c ≠ c2) :
    readCell (appendCell h c s) c2 = readCell h c2 := by
  simp [readCell, appendCell, List.getD, List.getElem?_set_ne hne]

theorem readCell_allocCell_fst (h : Heap) (xs : List String) :
    readCell (allocCell h xs).2 (allocCell h xs).1 = xs := by
  simp [readCell, allocCell,
    List.getD_append_right h.cells [xs] [] h.cells.length le_rfl]

theorem readCell_allocCell_old (h : Heap) (xs : List String) (c : Nat)
    (hc : c < h.cells.length) :
    readCell (allocCell h xs).2 c = readCell h c := by
  simp [readCell, allocCell, List.getD, List.getElem?_append_left hc]

/-! ### Claim theorems -/

/-- C2: for any store state, mutating the middle-name list of one
freshly constructed `DefaultsModel` instance is observed by another
(their fixed mutable default is the one list cell allocated at class
definition — the documented pitfall), whereas for `DefaultsModel_Field`
(default factory) mutating one instance's list leaves the other's
unchanged while the mutated instance does observe its own change; both
behaviors hold for every starting store and appended string, hence are
reproducible on demand. -/
theorem default_factory_independence (h : Heap) (s : String) :
    (let shared := (defineDefaultsModel h).1
     let h0 := (defineDefaultsModel h).2
     let a := (mkDefaultsModel shared h0).1
     let h1 := (mkDefaultsModel shared h0).2
     let b := (mkDefaultsModel shared h1).1
     let h2 := (mkDefaultsModel shared h1).2
     let h3 := appendCell h2 a.middle_name s
     readCell h3 b.middle_name = readCell h2 b.middle_name ++ [s] ∧
       readCell h3 a.middle_name = readCell h3 b.middle_name) ∧
    (let x := (mkDefaultsModelField h).1
     let g1 := (mkDefaultsModelField h).2
     let y := (mkDefaultsModelField g1).1
     let g2 := (mkDefaultsModelField g1).2
     let g3 := appendCell g2 x.middle_name s
     readCell g3 y.middle_name = readCell g2 y.middle_name ∧
       readCell g3 x.middle_name = readCell g2 x.middle_name ++ [s]) := by
  dsimp only [defineDefaultsModel, mkDefaultsModel, mkDefaultsModelField,
    allocCell]
  refine ⟨⟨?_, rfl⟩, ?_, ?_⟩
  · exact readCell_appendCell_self ⟨h.cells ++ [[]]⟩ h.cells.length s
      (by simp)
  · exact readCell_appendCell_ne _ h.cells.length (h.cells ++ [[]]).length s
      (by simp)
  · exact readCell_appendCell_self ⟨(h.cells ++ [[]]) ++ [[]]⟩
      h.cells.length s (by simp)

/-- C8: a `DefaultsModel` instance's field bindings are fixed at
construction (the two immutable string defaults and a reference to the
class's shared list cell) independently of the store, and a
post-construction mutation of any cell other than that shared
mutable-default cell leaves the instance's observable middle-name list
unchanged — the demonstrated shared-default pitfall is the only
post-construction operation that changes what the instance exposes. -/
theorem instance_bindings_immutable (shared : Nat) (h0 h : Heap)
    (c : Nat) (s : String) :
    ((mkDefaultsModel shared h0).1.first_name = "Cynthia" ∧
     (mkDefaultsModel shared h0).1.middle_name = shared ∧
     (mkDefaultsModel shared h0).1.last_name = "Frong" ∧
     (mkDefaultsModel shared h0).2 = h0) ∧
    (c ≠ shared →
      readCell (appendCell h c s) (mkDefaultsModel shared h0).1.middle_name =
        readCell h (mkDefaultsModel shared h0).1.middle_name) :=
  ⟨⟨rfl, rfl, rfl, rfl⟩, fun hne => readCell_appendCell_ne h c shared s hne⟩

/-- Witness for C8: with two cells in the store, appending through cell
1 leaves an instance bound to shared cell 0 unchanged. -/
theorem instance_bindings_immutable_witness :
    ((mkDefaultsModel 0 ⟨[]⟩).1.first_name = "Cynthia" ∧
     (mkDefaultsModel 0 ⟨[]⟩).1.middle_name = 0 ∧
     (mkDefaultsModel 0 ⟨[]⟩).1.last_name = "Frong" ∧
     (mkDefaultsModel 0 ⟨[]⟩).2 = ⟨[]⟩) ∧
    readCell (appendCell ⟨[[], []]⟩ 1 "Marie")
        (mkDefaultsModel 0 ⟨[]⟩).1.middle_name =
      readCell ⟨[[], []]⟩ (mkDefaultsModel 0 ⟨[]⟩).1.middle_name :=
  ⟨(instance_bindings_immutable 0 ⟨[]⟩ ⟨[[], []]⟩ 1 "Marie").1,
   (instance_bindings_immutable 0 ⟨[]⟩ ⟨[[], []]⟩ 1 "Marie").2
     (by decide)⟩

/-- C1: for every record shape and input mapping, construction yields
either a fully valid instance (every declared field bound to its
validated value) or exactly one error — the error of the first declared
field that fails, all fields before it validating — and never a third
outcome; no partial instance is produced. -/
theorem construction_fail_fast (s : Shape) (input : List (String × Val)) :
    ((∃ inst, validate s input = .ok inst) ∨
      (∃ e, validate s input = .error e)) ∧
    (∀ inst, validate s input = .ok inst →
      inst = (s.fields.map fun f => (f.name, okValD (validateField f input))) ∧
      ∀ f ∈ s.fields, (validateField f input).isOk = true) ∧
    (∀ e, validate s input = .error e →
      ∃ pre f post, s.fields = pre ++ f :: post ∧
        (∀ g ∈ pre, (validateField g input).isOk = true) ∧
        validateField f input = .error e) := by
  refine ⟨?_, ?_, ?_⟩
  · cases h : validate s input with
    | ok inst => exact .inl ⟨inst, rfl⟩
    | error e => exact .inr ⟨e, rfl⟩
  · exact fun inst h => validateFields_ok_inv s.fields input inst h
  · exact fun e h => (validateFields_error_iff s.fields input e).1 h

/-- Witness for C1 at example1's invalid input: the construction fails
with the `first_name` type error, produced at the first declared field
(the decomposition has an empty prefix of succeeding fields). -/
theorem construction_fail_fast_witness :
    ∃ pre f post, myFirstModel.fields = pre ++ f :: post ∧
      (∀ g ∈ pre,
        (validateField g
          [("first_name", .vint 123), ("last_name", .vstr "nealer")]).isOk
          = true) ∧
      validateField f
          [("first_name", .vint 123), ("last_name", .vstr "nealer")] =
        .error (.typeMismatch [.field "first_name"] .str (.vint 123)) :=
  (construction_fail_fast myFirstModel
    [("first_name", .vint 123), ("last_name", .vstr "nealer")]).2.2
    (.typeMismatch [.field "first_name"] .str (.vint 123)) rfl

/-- C3: union-typed values are resolved by trying the alternatives in
declared order, the first alternative that accepts the value winning and
exhaustion producing `UnionMismatch`; in particular `MyThirdModel` with
`holidays = ["Christmas", 12345]` fails with `UnionMismatch` at
`holidays` index 1, naming the attempted alternatives. -/
theorem union_first_alternative_wins :
    (∀ (alts : List Ty) (v : Val) (p : List PathElem),
      checkVal (.union alts) v p =
        match firstAccept alts v p with
        | some w => .ok w
        | none => .error (.unionMismatch p alts v)) ∧
    validate myThirdModel
        [("name", .vdict [(.vstr "first", .vstr "Bob"),
                          (.vstr "last", .vstr "Johnson")]),
         ("skills", .vlist [.vstr "Vue.js"]),
         ("holidays", .vlist [.vstr "Christmas", .vint 12345])] =
      .error (.unionMismatch [.field "holidays", .index 1]
        [.str, .datetime] (.vint 12345)) :=
  ⟨fun alts v p => resolveUnion_checkersOf alts alts v p, rfl⟩

/-- C5: whenever every declared field accepts the input, construction
succeeds and binds each field, in declaration order, to its validated
(possibly coerced) value; concretely, `NameModel` built from
`{first_name: "Jane", last_name: "Smith"}` leaves `middle_name` at its
absent-equivalent `None`, and `MyFirstModel` built from
`{first_name: 123, last_name: "nealer"}` fails with a `TypeMismatch`
on `first_name`. -/
theorem valid_input_equals_bound (fs : List FieldDecl)
    (input : List (String × Val)) :
    ((∀ f ∈ fs, (validateField f input).isOk = true) →
      validateFields fs input =
        .ok (fs.map fun f => (f.name, okValD (validateField f input)))) ∧
    validate nameModel [("first_name", .vstr "Jane"),
        ("last_name", .vstr "Smith")] =
      .ok [("first_name", .vstr "Jane"), ("middle_name", .vnone),
        ("last_name", .vstr "Smith")] ∧
    validate myFirstModel [("first_name", .vint 123),
        ("last_name", .vstr "nealer")] =
      .error (.typeMismatch [.field "first_name"] .str (.vint 123)) :=
  ⟨validateFields_ok_of_all fs input, rfl, rfl⟩

/-- Witness for C5 at example1's valid input: both fields accept and the
construction binds them to the supplied strings. -/
theorem valid_input_equals_bound_witness :
    validateFields myFirstModel.fields
        [("first_name", .vstr "marc"), ("last_name", .vstr "nealer")] =
      .ok (myFirstModel.fields.map fun f =>
        (f.name, okValD (validateField f
          [("first_name", .vstr "marc"), ("last_name", .vstr "nealer")]))) :=
  (valid_input_equals_bound myFirstModel.fields
    [("first_name", .vstr "marc"), ("last_name", .vstr "nealer")]).1
    (by decide)

/-- C7: a field missing from the input falls back to its fixed default,
else to its default factory, and fails with `MissingField` naming the
field only when it has neither; concretely `MyFirstModel` without
`last_name` fails with `MissingField "last_name"`, while `DefaultsModel`
and `DefaultsModel_Field` construct successfully from empty input using
their defaults. -/
theorem missing_field_behavior (f : FieldDecl) (input : List (String × Val)) :
    (lookupInput input f.name = none →
      validateField f input =
        match f.dflt with
        | .required => .error (.missingField f.name)
        | .fixed d => .ok d
        | .factory d => .ok d) ∧
    validate myFirstModel [("first_name", .vstr "marc")] =
      .error (.missingField "last_name") ∧
    validate defaultsModel [] =
      .ok [("first_name", .vstr "Cynthia"), ("middle_name", .vlist []),
        ("last_name", .vstr "Frong")] ∧
    validate defaultsModelField [] =
      .ok [("first_name", .vstr "Cynthia"), ("middle_name", .vlist []),
        ("last_name", .vstr "Frong")] := by
  refine ⟨fun h => ?_, rfl, rfl, rfl⟩
  rw [validateField, h]
  cases f.dflt <;> rfl

/-- Witness for C7 at example1's input that omits `last_name`: the
missing required field produces `MissingField "last_name"`. -/
theorem missing_field_behavior_witness :
    validateField ⟨"last_name", .str, .required⟩
        [("first_name", .vstr "marc")] =
      .error (.missingField "last_name") :=
  (missing_field_behavior ⟨"last_name", .str, .required⟩
    [("first_name", .vstr "marc")]).1 rfl

/-- C9: an empty sequence satisfies every declared sequence type and an
empty mapping satisfies every declared mapping type, whatever the
element, key and value types; concretely `MyThirdModel` accepts
`name={}`, `skills=[]`, `holidays=[]`. -/
theorem empty_collections_always_valid :
    (∀ (et : Ty) (p : List PathElem),
      checkVal (.list et) (.vlist []) p = .ok (.vlist [])) ∧
    (∀ (kt vt : Ty) (p : List PathElem),
      checkVal (.dict kt vt) (.vdict []) p = .ok (.vdict [])) ∧
    validate myThirdModel
        [("name", .vdict []), ("skills", .vlist []),
         ("holidays", .vlist [])] =
      .ok [("name", .vdict []), ("skills", .vlist []),
        ("holidays", .vlist [])] :=
  ⟨fun _ _ => rfl, fun _ _ _ => rfl, rfl⟩

theorem checkMap_ok_mem (kt : Ty) (fk fv : Checker) (es es2 : List (Val × Val))
    (p : List PathElem) (h : checkMap kt fk fv es p = .ok es2) :
    ∀ kv ∈ es, (fk kv.1 (p ++ [.key kv.1])).isOk = true ∧
      (fv kv.2 (p ++ [.key kv.1])).isOk = true := by
  induction es generalizing es2 with
  | nil => simp
  | cons kv rest ih =>
    obtain ⟨k, v⟩ := kv
    rw [checkMap] at h
    cases h1 : fk k (p ++ [.key k]) with
    | error e => rw [h1] at h; cases h
    | ok k2 =>
      rw [h1] at h
      cases h2 : fv v (p ++ [.key k]) with
      | error e => rw [h2] at h; cases h
      | ok v2 =>
        rw [h2] at h
        cases h3 : checkMap kt fk fv rest p with
        | error e => rw [h3] at h; cases h
        | ok rest2 =>
          intro kv2 hkv2
          rcases List.mem_cons.mp hkv2 with hkv2 | hkv2
          · subst hkv2
            exact ⟨by simp [h1, Except.isOk, Except.toBool],
              by simp [h2, Except.isOk, Except.toBool]⟩
          · exact ih rest2 h3 kv2 hkv2

theorem checkMap_error_cases (kt : Ty) (fk fv : Checker)
    (es : List (Val × Val)) (p : List PathElem) (e : VError)
    (h : checkMap kt fk fv es p = .error e) :
    (∃ k v, (k, v) ∈ es ∧ e = .keyTypeMismatch (p ++ [.key k]) kt k ∧
      (fk k (p ++ [.key k])).isOk = false) ∨
    (∃ k v, (k, v) ∈ es ∧ fv v (p ++ [.key k]) = .error e) := by
  induction es with
  | nil => rw [checkMap] at h; cases h
  | cons kv rest ih =>
    obtain ⟨k, v⟩ := kv
    rw [checkMap] at h
    cases h1 : fk k (p ++ [.key k]) with
    | error e2 =>
      rw [h1] at h
      cases h
      exact .inl ⟨k, v, by simp, rfl, by simp [h1, Except.isOk, Except.toBool]⟩
    | ok k2 =>
      rw [h1] at h
      cases h2 : fv v (p ++ [.key k]) with
      | error e2 =>
        rw [h2] at h
        cases h
        exact .inr ⟨k, v, by simp, h2⟩
      | ok v2 =>
        rw [h2] at h
        cases h3 : checkMap kt fk fv rest p with
        | error e2 =>
          rw [h3] at h
          cases h
          rcases ih h3 with ⟨k2, v2, hm, he, hk⟩ | ⟨k2, v2, hm, he⟩
          · exact .inl ⟨k2, v2, List.mem_cons_of_mem _ hm, he, hk⟩
          · exact .inr ⟨k2, v2, List.mem_cons_of_mem _ hm, he⟩
        | ok rest2 => rw [h3] at h; cases h

/-- C6: for a mapping-typed field every key is checked against the
declared key type and every value against the declared value type — a
successful check certifies every key and value, and any failure is
either a `KeyTypeMismatch` naming an offending key or the `TypeMismatch`
error produced by an offending value; concretely `MyThirdModel` rejects
`name={"first": "Ava", "last": 524}` with a `TypeMismatch` naming value
`524` and rejects `name={1: "John", "last": "Doe"}` with a
`KeyTypeMismatch` naming key `1`. -/
theorem mapping_keys_and_values_checked (kt vt : Ty)
    (es : List (Val × Val)) (p : List PathElem) :
    (∀ es2, checkMap kt (checkVal kt) (checkVal vt) es p = .ok es2 →
      ∀ kv ∈ es, (checkVal kt kv.1 (p ++ [.key kv.1])).isOk = true ∧
        (checkVal vt kv.2 (p ++ [.key kv.1])).isOk = true) ∧
    (∀ e, checkMap kt (checkVal kt) (checkVal vt) es p = .error e →
      (∃ k v, (k, v) ∈ es ∧ e = .keyTypeMismatch (p ++ [.key k]) kt k ∧
        (checkVal kt k (p ++ [.key k])).isOk = false) ∨
      (∃ k v, (k, v) ∈ es ∧ checkVal vt v (p ++ [.key k]) = .error e)) ∧
    validate myThirdModel
        [("name", .vdict [(.vstr "first", .vstr "Ava"),
                          (.vstr "last", .vint 524)]),
         ("skills", .vlist [.vstr "Flying"]),
         ("holidays", .vlist [.vstr "Valentines Day",
                              .vdatetime ⟨2025, 2, 14, 0, 0, 0⟩])] =
      .error (.typeMismatch [.field "name", .key (.vstr "last")]
        .str (.vint 524)) ∧
    validate myThirdModel
        [("name", .vdict [(.vint 1, .vstr "John"),
                          (.vstr "last", .vstr "Doe")]),
         ("skills", .vlist [.vstr "Python"]),
         ("holidays", .vlist [.vstr "Christmas"])] =
      .error (.keyTypeMismatch [.field "name", .key (.vint 1)]
        .str (.vint 1)) :=
  ⟨fun es2 h => checkMap_ok_mem kt (checkVal kt) (checkVal vt) es es2 p h,
   fun e h => checkMap_error_cases kt (checkVal kt) (checkVal vt) es p e h,
   rfl, rfl⟩

/-- Witness for C6 at example3's wrong-key-type mapping: the failure of
the `name` dictionary check is a `KeyTypeMismatch` naming the offending
key `1`. -/
theorem mapping_keys_and_values_checked_witness :
    (∃ k v, (k, v) ∈ [((Val.vint 1), Val.vstr "John"),
        (Val.vstr "last", Val.vstr "Doe")] ∧
      (VError.keyTypeMismatch [.field "name", .key (.vint 1)] .str (.vint 1))
        = .keyTypeMismatch ([PathElem.field "name"] ++ [.key k]) .str k ∧
      (checkVal .str k ([PathElem.field "name"] ++ [.key k])).isOk = false) ∨
    (∃ k v, (k, v) ∈ [((Val.vint 1), Val.vstr "John"),
        (Val.vstr "last", Val.vstr "Doe")] ∧
      checkVal .str v ([PathElem.field "name"] ++ [.key k]) =
        .error (.keyTypeMismatch [.field "name", .key (.vint 1)]
          .str (.vint 1))) :=
  (mapping_keys_and_values_checked .str .str
    [((Val.vint 1), Val.vstr "John"), (Val.vstr "last", Val.vstr "Doe")]
    [PathElem.field "name"]).2.1
    (.keyTypeMismatch [.field "name", .key (.vint 1)] .str (.vint 1)) rfl

/-- The Test 10 construction input: a valid `MyThirdModel` instance
containing a timestamp-typed holiday value. -/
def test10Input : List (String × Val) :=
  [("name", .vdict [(.vstr "first", .vstr "Eve"),
                    (.vstr "last", .vstr "Anderson")]),
   ("skills", .vlist [.vstr "Machine Learning", .vstr "Data Science"]),
   ("holidays", .vlist [.vstr "Memorial Day",
                        .vdatetime ⟨2024, 5, 27, 0, 0, 0⟩])]

/-- C4 counterexample: at Test 10's instance the reconstruction from the
dumped form succeeds but does not reproduce the original's field values
— the timestamp holiday comes back as its canonical string (the `str`
alternative of the `str`-or-`timestamp` union accepts the dumped text
first), so `parse(dump(instance))` differs from the instance. -/
theorem roundtrip_not_exact :
    validate myThirdModel test10Input = .ok test10Input ∧
    validate myThirdModel (dumpInst test10Input) =
      .ok (dumpInst test10Input) ∧
    dumpInst test10Input ≠ test10Input := by
  refine ⟨rfl, rfl, ?_⟩
  intro hco
  rw [show dumpInst test10Input =
      [("name", Val.vdict [(.vstr "first", .vstr "Eve"),
                           (.vstr "last", .vstr "Anderson")]),
       ("skills", Val.vlist [.vstr "Machine Learning",
                             .vstr "Data Science"]),
       ("holidays", Val.vlist [.vstr "Memorial Day",
                               .vstr "2024-05-27T00:00:00"])] from rfl] at hco
  simp [test10Input] at hco

/-- C4 (amended): reconstructing a valid `MyThirdModel` instance from
its dumped structured-textual form always succeeds and yields the
dump-normalized instance — every field value is preserved except that a
timestamp-typed value comes back as its single canonical textual
representation; in particular the round trip is exact for every
instance the dump operation leaves unchanged (one containing no
timestamp values). -/
theorem roundtrip_dump_normalized (input inst : List (String × Val)) :
    (validate myThirdModel input = .ok inst →
      validate myThirdModel (dumpInst inst) = .ok (dumpInst inst)) ∧
    (validate myThirdModel input = .ok inst → dumpInst inst = inst →
      validate myThirdModel (dumpInst inst) = .ok inst) := by
  have main : validate myThirdModel input = .ok inst →
      validate myThirdModel (dumpInst inst) = .ok (dumpInst inst) := by
    intro h
    obtain ⟨hbs, hok⟩ := validateFields_ok_inv myThirdModel.fields input inst h
    have h1 := hok ⟨"name", .dict .str .str, .required⟩ (by simp [myThirdModel])
    have h2 := hok ⟨"skills", .list .str, .required⟩ (by simp [myThirdModel])
    have h3 := hok ⟨"holidays", .list (.union [.str, .datetime]), .required⟩
      (by simp [myThirdModel])
    obtain ⟨rv1, nv, hl1, hc1, he1⟩ :=
      validateField_ok_decomp ⟨"name", .dict .str .str, .required⟩ input rfl h1
    obtain ⟨rv2, sv, hl2, hc2, he2⟩ :=
      validateField_ok_decomp ⟨"skills", .list .str, .required⟩ input rfl h2
    obtain ⟨rv3, hv, hl3, hc3, he3⟩ :=
      validateField_ok_decomp
        ⟨"holidays", .list (.union [.str, .datetime]), .required⟩ input rfl h3
    obtain ⟨es, es2, hrv1, hnv, hcm⟩ :=
      checkVal_dict_ok .str .str rv1 nv [.field "name"] hc1
    obtain ⟨xs2, ys2, hrv2, hsv, hseq2⟩ :=
      checkVal_list_ok .str rv2 sv [.field "skills"] hc2
    obtain ⟨xs3, ys3, hrv3, hhv, hseq3⟩ :=
      checkVal_list_ok (.union [.str, .datetime]) rv3 hv
        [.field "holidays"] hc3
    have hes2 : ∀ kv ∈ es2,
        (∃ s, kv.1 = Val.vstr s) ∧ (∃ s, kv.2 = Val.vstr s) :=
      checkMap_ok_forall .str (checkVal .str) (checkVal .str)
        (fun w => ∃ s, w = Val.vstr s) (fun w => ∃ s, w = Val.vstr s)
        (fun x q w hw => (checkVal_str_ok x w q hw).imp fun _ hs => hs.2)
        (fun x q w hw => (checkVal_str_ok x w q hw).imp fun _ hs => hs.2)
        es es2 [.field "name"] hcm
    have hys2 : ∀ y ∈ ys2, ∃ s, y = Val.vstr s :=
      checkSeq_ok_forall (checkVal .str) (fun w => ∃ s, w = Val.vstr s)
        (fun x q w hw => (checkVal_str_ok x w q hw).imp fun _ hs => hs.2)
        xs2 ys2 [.field "skills"] 0 hseq2
    have hys3 : ∀ y ∈ ys3,
        (∃ s, y = Val.vstr s) ∨ (∃ d, y = Val.vdatetime d) :=
      checkSeq_ok_forall (checkVal (.union [.str, .datetime]))
        (fun w => (∃ s, w = Val.vstr s) ∨ (∃ d, w = Val.vdatetime d))
        (fun x q w hw => checkVal_unionSD_ok x w q hw)
        xs3 ys3 [.field "holidays"] 0 hseq3
    subst hnv hsv hhv
    simp only [myThirdModel, List.map_cons, List.map_nil] at hbs
    rw [he1, he2, he3] at hbs
    subst hbs
    obtain ⟨hde, hcm2⟩ := dump_revalidate_str_entries es2 [.field "name"] hes2
    obtain ⟨hdl, hcs2⟩ := dump_revalidate_str_list ys2 [.field "skills"] 0 hys2
    have hcu2 := dump_revalidate_unionSD ys3 [.field "holidays"] 0 hys3
    have hdump : dumpInst [("name", Val.vdict es2), ("skills", Val.vlist ys2),
        ("holidays", Val.vlist ys3)] =
        [("name", Val.vdict es2), ("skills", Val.vlist ys2),
         ("holidays", Val.vlist (dumpValList ys3))] := by
      simp [dumpInst, dumpVal, hde, hdl]
    rw [hdump]
    have hv1 : checkVal (.dict .str .str) (.vdict es2) [.field "name"] =
        .ok (.vdict es2) := by
      have he : checkVal (.dict .str .str) (.vdict es2) [.field "name"] =
          (match checkMap .str (checkVal .str) (checkVal .str) es2
              [.field "name"] with
           | .ok es3 => Except.ok (Val.vdict es3)
           | .error e => Except.error e) := rfl
      rw [he, hcm2]
    have hv2 : checkVal (.list .str) (.vlist ys2) [.field "skills"] =
        .ok (.vlist ys2) := by
      have he : checkVal (.list .str) (.vlist ys2) [.field "skills"] =
          (match checkSeq (checkVal .str) ys2 [.field "skills"] 0 with
           | .ok zs => Except.ok (Val.vlist zs)
           | .error e => Except.error e) := rfl
      rw [he, hcs2]
    have hv3 : checkVal (.list (.union [.str, .datetime]))
        (.vlist (dumpValList ys3)) [.field "holidays"] =
        .ok (.vlist (dumpValList ys3)) := by
      have he : checkVal (.list (.union [.str, .datetime]))
          (.vlist (dumpValList ys3)) [.field "holidays"] =
          (match checkSeq (checkVal (.union [.str, .datetime]))
              (dumpValList ys3) [.field "holidays"] 0 with
           | .ok zs => Except.ok (Val.vlist zs)
           | .error e => Except.error e) := rfl
      rw [he, hcu2]
    have hf1 : validateField ⟨"name", .dict .str .str, .required⟩
        [("name", Val.vdict es2), ("skills", Val.vlist ys2),
         ("holidays", Val.vlist (dumpValList ys3))] = .ok (.vdict es2) := by
      rw [show validateField ⟨"name", .dict .str .str, .required⟩
          [("name", Val.vdict es2), ("skills", Val.vlist ys2),
           ("holidays", Val.vlist (dumpValList ys3))] =
          checkVal (.dict .str .str) (.vdict es2) [.field "name"] from rfl,
        hv1]
    have hf2 : validateField ⟨"skills", .list .str, .required⟩
        [("name", Val.vdict es2), ("skills", Val.vlist ys2),
         ("holidays", Val.vlist (dumpValList ys3))] = .ok (.vlist ys2) := by
      rw [show validateField ⟨"skills", .list .str, .required⟩
          [("name", Val.vdict es2), ("skills", Val.vlist ys2),
           ("holidays", Val.vlist (dumpValList ys3))] =
          checkVal (.list .str) (.vlist ys2) [.field "skills"] from rfl, hv2]
    have hf3 : validateField
        ⟨"holidays", .list (.union [.str, .datetime]), .required⟩
        [("name", Val.vdict es2), ("skills", Val.vlist ys2),
         ("holidays", Val.vlist (dumpValList ys3))] =
        .ok (.vlist (dumpValList ys3)) := by
      rw [show validateField
          ⟨"holidays", .list (.union [.str, .datetime]), .required⟩
          [("name", Val.vdict es2), ("skills", Val.vlist ys2),
           ("holidays", Val.vlist (dumpValList ys3))] =
          checkVal (.list (.union [.str, .datetime]))
            (.vlist (dumpValList ys3)) [.field "holidays"] from rfl, hv3]
    show validateFields myThirdModel.fields _ = _
    simp only [myThirdModel]
    simp only [validateFields, hf1, hf2, hf3]
  exact ⟨main, fun h hfix => (main h).trans (by rw [hfix])⟩

/-- Witness for C4 (amended) at Test 10's instance: reconstruction from
the dumped form succeeds and yields the dump-normalized instance. -/
theorem roundtrip_dump_normalized_witness :
    validate myThirdModel (dumpInst test10Input) =
      .ok (dumpInst test10Input) :=
  (roundtrip_dump_normalized test10Input test10Input).1 rfl

/-- C10: `MySecondModel.middle_name` is union-typed `str`-or-`None` but
has no default, so it is still required — omitting it fails with a
missing-field error even though supplying `None` explicitly succeeds:
accepting `None` and being omittable are distinct. -/
theorem union_none_without_default_required :
    validate mySecondModel [("first_name", .vstr "Marc")] =
      .error (.missingField "middle_name") ∧
    validate mySecondModel
        [("first_name", .vstr "Marc"), ("middle_name", .vnone)] =
      .ok [("first_name", .vstr "Marc"), ("middle_name", .vnone)] :=
  ⟨rfl, rfl⟩

end PydanticModel
